import Mathlib

/-!
Shallow embedding of the tic-tac-toe game in `src/main.rs`.

The board is a 3×3 matrix of cell states; `check_winner` scans rows,
(intended) columns and the two diagonals; `move_player` validates a
two-character move string and places the current player's mark; `main`
runs the turn loop until a winner is found or nine valid moves fill the
board.

Rust panics (`panic!`, `.expect`) are modelled by `Option`: a function
returns `none` exactly when the corresponding Rust code would abort.
-/

namespace TicTacToe

/-- `enum State { X, O, EMPTY }` — cell contents, also used as the
result of `check_winner` (`EMPTY` = no winner yet). -/
inductive State where
  | X
  | O
  | EMPTY
deriving DecidableEq, Fintype

/-- `enum InputStatus` — result of move validation in `move_player`. -/
inductive InputStatus where
  | Success
  | NotTwoDigits
  | RowNotBaseTen
  | ColNotBaseTen
  | InvalidRowVal
  | InvalidColVal
  | GridOccupied
deriving DecidableEq

/-- `type Board = [[State; COLS]; ROWS]` with `ROWS = COLS = 3`. -/
abbrev Board := Fin 3 → Fin 3 → State

/-- `[[State::EMPTY; COLS]; ROWS]` — the initial board. -/
def emptyBoard : Board := fun _ _ => State.EMPTY

/-- `board[r][c] = m` — single-cell update used at lines 155/156. -/
def updateBoard (b : Board) (r c : Fin 3) (m : State) : Board :=
  fun r' c' => if r' = r ∧ c' = c then m else b r' c'

/-- The row `board[r]` as a triple of cells. -/
def rowOf (b : Board) (r : Fin 3) : State × State × State :=
  (b r 0, b r 1, b r 2)

/-- Column `c` of the board as a triple of cells (the line the source's
column loop intended to examine). -/
def colOf (b : Board) (c : Fin 3) : State × State × State :=
  (b 0 c, b 1 c, b 2 c)

/-- `[board[0][0], board[1][1], board[2][2]]` — the main diagonal. -/
def mainDiag (b : Board) : State × State × State :=
  (b 0 0, b 1 1, b 2 2)

/-- `[board[2][0], board[1][1], board[0][2]]` — the anti-diagonal. -/
def antiDiag (b : Board) : State × State × State :=
  (b 2 0, b 1 1, b 0 2)

/-- One `match` arm of the line scan: `[X,X,X] => X`, `[O,O,O] => O`,
otherwise fall through. -/
def tripleWin : State × State × State → Option State
  | (State.X, State.X, State.X) => some State.X
  | (State.O, State.O, State.O) => some State.O
  | _ => none

/-- `fn check_winner(board: &Board) -> State` (lines 205–242).

The row loop scans `board[r][..]` for `r = 0,1,2`.  The column loop
scans `board[..][c]`: in Rust `board[..]` is the full slice of rows and
indexing it with `c` yields **row `c`**, so the second block of three
scans below repeats the rows — a faithful rendering of the source, which
never inspects an actual column.  Then the two diagonals are scanned,
and `EMPTY` is returned when no line matched. -/
def checkWinner (b : Board) : State :=
  (tripleWin (rowOf b 0) <|> tripleWin (rowOf b 1) <|> tripleWin (rowOf b 2) <|>
   tripleWin (rowOf b 0) <|> tripleWin (rowOf b 1) <|> tripleWin (rowOf b 2) <|>
   tripleWin (mainDiag b) <|> tripleWin (antiDiag b)).getD State.EMPTY

/-- `char::to_digit(10)` for radix 10: `Some(d)` exactly for the ASCII
digits `'0'..='9'`. -/
def charToDigit (c : Char) : Option Nat :=
  if '0' ≤ c ∧ c ≤ '9' then some (c.toNat - Char.toNat '0') else none

/-- `str::len()` of the trimmed input — the number of **bytes** of its
UTF-8 encoding, not the number of characters. -/
def byteLength (s : List Char) : Nat := (s.map Char.utf8Size).sum

/-- `match r { 1|2|3 => (r - 1) as usize, _ => return ... }` — maps a raw
digit in `{1,2,3}` to a zero-based board index, rejecting the rest. -/
def toIndex : Nat → Option (Fin 3)
  | 1 => some 0
  | 2 => some 1
  | 3 => some 2
  | _ => none

/-- `fn move_player(board: &mut Board, turn: State) -> InputStatus`
(lines 91–161), with the already-trimmed input line passed explicitly
and the (possibly updated) board returned alongside the status.

`none` models a panic: the `panic!("Invalid turn value!")` in the prompt
`match` (line 96) when `turn` is `EMPTY`, and the two `.expect` calls
(lines 117 and 134) when `chars.next()` finds no character. -/
def movePlayer (turn : State) (b : Board) (input : List Char) :
    Option (InputStatus × Board) :=
  if turn = State.EMPTY then none
  else if byteLength input ≠ 2 then some (InputStatus.NotTwoDigits, b)
  else
    match input with
    | [] => none
    | c₁ :: rest =>
      match charToDigit c₁ with
      | none => some (InputStatus.RowNotBaseTen, b)
      | some d₁ =>
        match toIndex d₁ with
        | none => some (InputStatus.InvalidRowVal, b)
        | some r =>
          match rest with
          | [] => none
          | c₂ :: _ =>
            match charToDigit c₂ with
            | none => some (InputStatus.ColNotBaseTen, b)
            | some d₂ =>
              match toIndex d₂ with
              | none => some (InputStatus.InvalidColVal, b)
              | some c =>
                if b r c ≠ State.EMPTY then
                  some (InputStatus.GridOccupied, b)
                else
                  some (InputStatus.Success, updateBoard b r c turn)

/-- The turn swap at lines 72–76; `none` models the
`panic!("Invalid turn value!")` arm. -/
def swapTurn : State → Option State
  | State.X => some State.O
  | State.O => some State.X
  | State.EMPTY => none

/-- The mutable state of `main`'s game loop: the board, the
`valid_moves` counter, whose turn it is, and the winner found so far. -/
structure GameState where
  board : Board
  validMoves : Nat
  turn : State
  winner : State

/-- The state on entry to the loop: empty board, zero valid moves,
player `X` to move, no winner. -/
def initState : GameState :=
  { board := emptyBoard, validMoves := 0, turn := State.X,
    winner := State.EMPTY }

/-- One iteration of the `while` loop in `main` (lines 51–77) on a given
input line: call `move_player`; on failure re-prompt (state unchanged up
to the board returned by `move_player`); on success increment
`valid_moves`, record any winner reported by `check_winner`, and swap
the turn.  `none` models a panic inside `move_player` or the turn-swap. -/
def mainStep (s : GameState) (input : List Char) : Option GameState :=
  match movePlayer s.turn s.board input with
  | none => none
  | some (status, b') =>
    if status ≠ InputStatus.Success then
      some { s with board := b' }
    else
      match swapTurn s.turn with
      | none => none
      | some t' =>
        some { board := b',
               validMoves := s.validMoves + 1,
               turn := t',
               winner :=
                 match checkWinner b' with
                 | State.EMPTY => s.winner
                 | p => p }

/-- The `while winner == EMPTY && valid_moves != 9` loop, fed a list of
input lines: while the loop condition holds, consume one line per
iteration; once it fails, remaining input is never requested. -/
def run (s : GameState) : List (List Char) → Option GameState
  | [] => some s
  | i :: is =>
    if s.winner = State.EMPTY ∧ s.validMoves ≠ 9 then
      (mainStep s i).bind fun s' => run s' is
    else
      some s

/-- The final `match winner` report (lines 79–83). -/
def finalMessage (s : GameState) : String :=
  match s.winner with
  | State.X => "\nPlayer X wins!"
  | State.O => "\nPlayer O wins!"
  | State.EMPTY => "\nDraw!"

/-- All three cells of a line carry the mark `m`. -/
def lineAll (t : State × State × State) (m : State) : Prop :=
  t.1 = m ∧ t.2.1 = m ∧ t.2.2 = m

instance (t : State × State × State) (m : State) : Decidable (lineAll t m) := by
  unfold lineAll; infer_instance

/-- The line is a completed line of one (non-empty) mark. -/
def winLine (t : State × State × State) : Prop :=
  lineAll t State.X ∨ lineAll t State.O

instance (t : State × State × State) : Decidable (winLine t) := by
  unfold winLine; infer_instance

/-- The opposing player's mark. -/
def other : State → State
  | State.X => State.O
  | State.O => State.X
  | State.EMPTY => State.EMPTY

/-- A concrete board written as rows of cells (missing entries read as
`EMPTY`), for stating counterexamples and witnesses. -/
def boardOf (g : List (List State)) : Board :=
  fun r c => (((g.get? r.val).bind fun row => row.get? c.val).getD State.EMPTY)

/-- The first input character read as a decimal digit, when present. -/
def rowDigit (input : List Char) : Option Nat :=
  (input.get? 0).bind charToDigit

/-- The second input character read as a decimal digit, when present. -/
def colDigit (input : List Char) : Option Nat :=
  (input.get? 1).bind charToDigit

/-- The zero-based row index named by the input, when valid. -/
def rowIdx (input : List Char) : Option (Fin 3) :=
  (rowDigit input).bind toIndex

/-- The zero-based column index named by the input, when valid. -/
def colIdx (input : List Char) : Option (Fin 3) :=
  (colDigit input).bind toIndex

/-- The addressed cell is unoccupied (vacuously true when the address is
not yet known to be valid — an earlier check fails first then). -/
def targetFree (b : Board) (input : List Char) : Bool :=
  match rowIdx input, colIdx input with
  | some r, some c => b r c == State.EMPTY
  | _, _ => true

/-- First-failure-wins: scan an ordered list of checks, return the
failure kind of the first that fails, `Success` if all pass. -/
def firstFailure : List (Bool × InputStatus) → InputStatus
  | [] => InputStatus.Success
  | (ok, k) :: rest => if ok then firstFailure rest else k

/-- Validation as the spec words it (§4.2): six checks applied in the
fixed order length, row-is-digit, row-in-range, column-is-digit,
column-in-range, cell-unoccupied, the first failing check's kind
returned.  To be compared with `movePlayer`, which embeds the source's
control flow. -/
def orderedCheck (b : Board) (input : List Char) : InputStatus :=
  firstFailure
    [(byteLength input == 2, InputStatus.NotTwoDigits),
     ((rowDigit input).isSome, InputStatus.RowNotBaseTen),
     ((rowIdx input).isSome, InputStatus.InvalidRowVal),
     ((colDigit input).isSome, InputStatus.ColNotBaseTen),
     ((colIdx input).isSome, InputStatus.InvalidColVal),
     (targetFree b input, InputStatus.GridOccupied)]

/-! ### Concrete boards and states used in counterexamples and witnesses -/

/-- Column 2 (zero-based index 1) holds three `O`s; every other line is
incomplete. -/
def columnOnlyBoard : Board :=
  boardOf [[State.EMPTY, State.O, State.EMPTY],
           [State.EMPTY, State.O, State.EMPTY],
           [State.EMPTY, State.O, State.EMPTY]]

/-- Rows 0 and 1 are completed lines of different marks. -/
def twoRowsBoard : Board :=
  boardOf [[State.X, State.X, State.X], [State.O, State.O, State.O], []]

/-- A loop state in which cell (0,0) already holds `X` and `O` is to
move. -/
def occupiedState : GameState :=
  { board := updateBoard emptyBoard 0 0 State.X, validMoves := 1,
    turn := State.O, winner := State.EMPTY }

/-- U+00E9, a one-character input occupying two UTF-8 bytes. -/
def eAcute : Char := Char.ofNat 233

/-- The loop state after `X` successfully plays `"11"` from the start. -/
def afterFirstMove : GameState :=
  { board := updateBoard emptyBoard 0 0 State.X, validMoves := 1,
    turn := State.O, winner := State.EMPTY }

/-- A full board with nine valid moves played and no three-in-a-row. -/
def drawReadyState : GameState :=
  { board := boardOf [[State.X, State.X, State.O],
                      [State.O, State.O, State.X],
                      [State.X, State.O, State.X]],
    validMoves := 9, turn := State.O, winner := State.EMPTY }

/-- A state in which `X` completes row 0 by playing `"13"`. -/
def nearWinState : GameState :=
  { board := boardOf [[State.X, State.X, State.EMPTY],
                      [State.O, State.O, State.EMPTY],
                      [State.EMPTY, State.EMPTY, State.EMPTY]],
    validMoves := 4, turn := State.X, winner := State.EMPTY }

/-! ### Line-scan lemmas -/

lemma tripleWin_eq_none : ∀ t, ¬ winLine t → tripleWin t = none := by decide

lemma tripleWin_eq_some :
    ∀ t m, m ≠ State.EMPTY → lineAll t m → tripleWin t = some m := by decide

lemma tripleWin_some_inv :
    ∀ t w, tripleWin t = some w → w ≠ State.EMPTY ∧ lineAll t w := by decide

lemma eq_mark_of_ne_other :
    ∀ m w : State, m ≠ State.EMPTY → w ≠ State.EMPTY → w ≠ other m → w = m := by
  decide

lemma lineAll_unique {t : State × State × State} {m w : State}
    (h1 : lineAll t m) (h2 : lineAll t w) : m = w :=
  h1.1.symm.trans h2.1

lemma checkWinner_row0 (b : Board) (w : State)
    (h : tripleWin (rowOf b 0) = some w) : checkWinner b = w := by
  simp [checkWinner, h]

lemma checkWinner_row1 (b : Board) (w : State)
    (h0 : tripleWin (rowOf b 0) = none)
    (h1 : tripleWin (rowOf b 1) = some w) : checkWinner b = w := by
  simp [checkWinner, h0, h1]

lemma checkWinner_row2 (b : Board) (w : State)
    (h0 : tripleWin (rowOf b 0) = none)
    (h1 : tripleWin (rowOf b 1) = none)
    (h2 : tripleWin (rowOf b 2) = some w) : checkWinner b = w := by
  simp [checkWinner, h0, h1, h2]

lemma checkWinner_mainDiag (b : Board) (w : State)
    (h0 : tripleWin (rowOf b 0) = none)
    (h1 : tripleWin (rowOf b 1) = none)
    (h2 : tripleWin (rowOf b 2) = none)
    (hd : tripleWin (mainDiag b) = some w) : checkWinner b = w := by
  simp [checkWinner, h0, h1, h2, hd]

lemma checkWinner_antiDiag (b : Board) (w : State)
    (h0 : tripleWin (rowOf b 0) = none)
    (h1 : tripleWin (rowOf b 1) = none)
    (h2 : tripleWin (rowOf b 2) = none)
    (hd : tripleWin (mainDiag b) = none)
    (ha : tripleWin (antiDiag b) = some w) : checkWinner b = w := by
  simp [checkWinner, h0, h1, h2, hd, ha]

/-! ### Input-shape lemmas -/

lemma utf8Size_of_digit (c : Char) (h : (charToDigit c).isSome) :
    c.utf8Size = 1 := by
  by_cases hc : ('0' ≤ c ∧ c ≤ '9')
  · have h9 : c.val ≤ (Char.ofNat 57).val := hc.2
    have hlim : c.val ≤ UInt32.ofNatCore 0x7F (by decide) := by
      simp only [UInt32.le_def, BitVec.le_def] at h9 ⊢
      have h57 : ((Char.ofNat 57).val.toBitVec.toNat) = 57 := by decide
      have h127 : (UInt32.ofNatCore 127 (by decide)).toBitVec.toNat = 127 := by
        decide
      omega
    unfold Char.utf8Size
    rw [if_pos hlim]
  · simp [charToDigit, hc] at h

lemma one_le_utf8Size (c : Char) : 1 ≤ c.utf8Size := c.utf8Size_pos

/-- A trimmed input of `str::len() = 2` is either one two-byte character
or two one-byte characters. -/
lemma byteLength_two_cases (input : List Char) (h : byteLength input = 2) :
    (∃ c, input = [c] ∧ c.utf8Size = 2) ∨
    (∃ c d, input = [c, d] ∧ c.utf8Size = 1 ∧ d.utf8Size = 1) := by
  match input with
  | [] => simp [byteLength] at h
  | [c] =>
    left; exact ⟨c, rfl, by simpa [byteLength] using h⟩
  | [c, d] =>
    right
    refine ⟨c, d, rfl, ?_, ?_⟩ <;>
    · have hc := one_le_utf8Size c
      have hd := one_le_utf8Size d
      simp [byteLength] at h
      omega
  | c :: d :: e :: rest =>
    exfalso
    have hc := one_le_utf8Size c
    have hd := one_le_utf8Size d
    have he := one_le_utf8Size e
    simp [byteLength] at h
    omega

/-- A character occupying two UTF-8 bytes is not an ASCII digit. -/
lemma charToDigit_none_of_size_two (c : Char) (h : c.utf8Size = 2) :
    charToDigit c = none := by
  cases hd : charToDigit c with
  | none => rfl
  | some d =>
    have hs : (charToDigit c).isSome := by simp [hd]
    rw [utf8Size_of_digit c hs] at h
    omega

/-! ### Move-validation and game-step lemmas -/

/-- `move_player`'s status agrees with the spec's ordered six-check
description, for any non-`EMPTY` turn. -/
lemma movePlayer_fst (turn : State) (b : Board) (input : List Char)
    (h : turn ≠ State.EMPTY) :
    (movePlayer turn b input).map Prod.fst = some (orderedCheck b input) := by
  by_cases hlen : byteLength input = 2
  · rcases byteLength_two_cases input hlen with ⟨c, rfl, hc2⟩ | ⟨c, d, rfl, hc1, hd1⟩
    · have hcd := charToDigit_none_of_size_two c hc2
      simp [movePlayer, orderedCheck, firstFailure, rowDigit, h, hlen, hcd]
    · cases hcd : charToDigit c with
      | none =>
        simp [movePlayer, orderedCheck, firstFailure, rowDigit, h, hlen, hcd]
      | some dc =>
        cases hti : toIndex dc with
        | none =>
          simp [movePlayer, orderedCheck, firstFailure, rowDigit, rowIdx, h,
                hlen, hcd, hti]
        | some r =>
          cases hce : charToDigit d with
          | none =>
            simp [movePlayer, orderedCheck, firstFailure, rowDigit, rowIdx,
                  colDigit, h, hlen, hcd, hti, hce]
          | some ec =>
            cases htj : toIndex ec with
            | none =>
              simp [movePlayer, orderedCheck, firstFailure, rowDigit, rowIdx,
                    colDigit, colIdx, h, hlen, hcd, hti, hce, htj]
            | some cc =>
              by_cases hocc : b r cc = State.EMPTY
              · simp [movePlayer, orderedCheck, firstFailure, rowDigit, rowIdx,
                      colDigit, colIdx, targetFree, h, hlen, hcd, hti, hce,
                      htj, hocc]
              · simp [movePlayer, orderedCheck, firstFailure, rowDigit, rowIdx,
                      colDigit, colIdx, targetFree, h, hlen, hcd, hti, hce,
                      htj, hocc]
  · simp [movePlayer, orderedCheck, firstFailure, h, hlen]

/-- A rejected move hands the board back unchanged. -/
lemma movePlayer_fail_board (turn : State) (b : Board) (input : List Char)
    (st : InputStatus) (b' : Board) (h : turn ≠ State.EMPTY)
    (hmp : movePlayer turn b input = some (st, b'))
    (hst : st ≠ InputStatus.Success) : b' = b := by
  by_cases hlen : byteLength input = 2
  · rcases byteLength_two_cases input hlen with ⟨c, rfl, hc2⟩ | ⟨c, d, rfl, hc1, hd1⟩
    · have hcd := charToDigit_none_of_size_two c hc2
      simp [movePlayer, h, hlen, hcd] at hmp
      simp_all
    · cases hcd : charToDigit c with
      | none => simp [movePlayer, h, hlen, hcd] at hmp; simp_all
      | some dc =>
        cases hti : toIndex dc with
        | none => simp [movePlayer, h, hlen, hcd, hti] at hmp; simp_all
        | some r =>
          cases hce : charToDigit d with
          | none => simp [movePlayer, h, hlen, hcd, hti, hce] at hmp; simp_all
          | some ec =>
            cases htj : toIndex ec with
            | none =>
              simp [movePlayer, h, hlen, hcd, hti, hce, htj] at hmp; simp_all
            | some cc =>
              by_cases hocc : b r cc = State.EMPTY
              · simp [movePlayer, h, hlen, hcd, hti, hce, htj, hocc] at hmp
                simp_all
              · simp [movePlayer, h, hlen, hcd, hti, hce, htj, hocc] at hmp
                simp_all
  · simp [movePlayer, h, hlen] at hmp; simp_all

/-- With a legitimate turn value, `move_player` never panics. -/
lemma movePlayer_isSome (turn : State) (b : Board) (input : List Char)
    (h : turn ≠ State.EMPTY) : (movePlayer turn b input).isSome := by
  have := movePlayer_fst turn b input h
  cases hmp : movePlayer turn b input with
  | none => rw [hmp] at this; simp at this
  | some p => simp

lemma turn_ne_empty_iff (t : State) :
    t ≠ State.EMPTY ↔ (t = State.X ∨ t = State.O) := by
  cases t <;> simp

/-- A failed move leaves the loop state exactly as it was. -/
lemma mainStep_of_fail (s : GameState) (input : List Char)
    (st : InputStatus) (b' : Board) (h : s.turn ≠ State.EMPTY)
    (hmp : movePlayer s.turn s.board input = some (st, b'))
    (hst : st ≠ InputStatus.Success) : mainStep s input = some s := by
  have hb := movePlayer_fail_board _ _ _ _ _ h hmp hst
  subst hb
  simp [mainStep, hmp, hst]

/-- The loop state after a successful move. -/
lemma mainStep_success_eq (s : GameState) (input : List Char) (b' : Board)
    (t' : State)
    (hmp : movePlayer s.turn s.board input = some (InputStatus.Success, b'))
    (hsw : swapTurn s.turn = some t') :
    mainStep s input =
      some { board := b', validMoves := s.validMoves + 1, turn := t',
             winner := match checkWinner b' with
                       | State.EMPTY => s.winner
                       | p => p } := by
  simp [mainStep, hmp, hsw]

/-- One loop iteration from a state with a player's turn reaches a state
with a player's turn, without panicking. -/
lemma mainStep_preserves_turn (s : GameState) (input : List Char)
    (h : s.turn = State.X ∨ s.turn = State.O) :
    ∃ s', mainStep s input = some s' ∧
      (s'.turn = State.X ∨ s'.turn = State.O) := by
  have hne := (turn_ne_empty_iff s.turn).mpr h
  obtain ⟨⟨st, b'⟩, hmp⟩ :=
    Option.isSome_iff_exists.mp (movePlayer_isSome s.turn s.board input hne)
  by_cases hst : st = InputStatus.Success
  · subst hst
    rcases h with hX | hO
    · exact ⟨_, mainStep_success_eq s input b' State.O hmp (by rw [hX]; rfl),
        Or.inr rfl⟩
    · exact ⟨_, mainStep_success_eq s input b' State.X hmp (by rw [hO]; rfl),
        Or.inl rfl⟩
  · exact ⟨s, mainStep_of_fail s input st b' hne hmp hst, h⟩

/-- Loop invariant: the turn stays a player mark and the loop never
panics, over any input sequence. -/
lemma run_inv (inputs : List (List Char)) :
    ∀ s : GameState, (s.turn = State.X ∨ s.turn = State.O) →
    ∃ s', run s inputs = some s' ∧ (s'.turn = State.X ∨ s'.turn = State.O) := by
  induction inputs with
  | nil => exact fun s h => ⟨s, rfl, h⟩
  | cons i is ih =>
    intro s h
    by_cases hc : s.winner = State.EMPTY ∧ s.validMoves ≠ 9
    · obtain ⟨s₁, hs₁, ht₁⟩ := mainStep_preserves_turn s i h
      obtain ⟨s', hs', ht'⟩ := ih s₁ ht₁
      exact ⟨s', by simp [run, hc, hs₁, hs'], ht'⟩
    · exact ⟨s, by simp [run, hc], h⟩

/-! ### Further helper lemmas -/

/-- When the byte length is 2, the ordered validation never reports the
length failure: some later check's kind (or `Success`) results. -/
lemma orderedCheck_len_iff (b : Board) (input : List Char) :
    orderedCheck b input = InputStatus.NotTwoDigits ↔ byteLength input ≠ 2 := by
  by_cases hlen : byteLength input = 2
  · have hne : orderedCheck b input ≠ InputStatus.NotTwoDigits := by
      have h2 : (byteLength input == 2) = true := by simp [hlen]
      simp only [orderedCheck, firstFailure, h2, if_true]
      split_ifs <;> decide
    exact iff_of_false hne (not_not_intro hlen)
  · have h2 : (byteLength input == 2) = false := by simp [hlen]
    have hok : orderedCheck b input = InputStatus.NotTwoDigits := by
      simp [orderedCheck, firstFailure, h2]
    exact iff_of_true hok hlen

/-- Once the loop condition fails, no further input is consumed. -/
lemma run_stop (s : GameState)
    (h : ¬(s.winner = State.EMPTY ∧ s.validMoves ≠ 9)) :
    ∀ inputs, run s inputs = some s := by
  intro inputs
  cases inputs with
  | nil => rfl
  | cons i is => simp [run, h]

/-- A state with a recorded winner is never reported as a draw. -/
lemma finalMessage_ne_draw (s : GameState) (h : s.winner ≠ State.EMPTY) :
    finalMessage s ≠ "\nDraw!" := by
  cases hw : s.winner with
  | EMPTY => exact absurd hw h
  | X => simp only [finalMessage, hw]; decide
  | O => simp only [finalMessage, hw]; decide

/-! ### Claim theorems -/

/-! ### C1 — column wins -/

/-- C1: on a board whose column 2 is entirely the second player's mark
and with no completed row or diagonal, `check_winner` returns `EMPTY`,
not `O`: the source's column loop reads `board[..][c]`, which is row `c`,
so no actual column is ever examined and a column win goes undetected —
contradicting both the spec and the source's own
`Check per-column win condition` comment. -/
theorem c1_column_win_not_detected :
    lineAll (colOf columnOnlyBoard 1) State.O ∧
    (∀ r : Fin 3, ¬ winLine (rowOf columnOnlyBoard r)) ∧
    ¬ winLine (mainDiag columnOnlyBoard) ∧
    ¬ winLine (antiDiag columnOnlyBoard) ∧
    checkWinner columnOnlyBoard = State.EMPTY := by decide

/-! ### C2 — row and diagonal wins -/

/-- C2 (counterexample): the claim says any row of three equal non-empty
marks makes `check_winner` return that mark, with no proviso about other
rows; on a board whose row 0 is all `X` and row 1 all `O`, row 1 is a
completed `O` line yet `check_winner` returns `X`, not `O`. -/
theorem c2_counterexample :
    State.O ≠ State.EMPTY ∧
    lineAll (rowOf twoRowsBoard 1) State.O ∧
    checkWinner twoRowsBoard ≠ State.O := by decide

/-- C2 (amended): a row of three equal non-empty marks is reported as
the winner provided no row of smaller index is a completed line of the
other mark; and a main- or anti-diagonal of three equal non-empty marks
is reported when no row or column is a winning line. -/
theorem c2_row_and_diagonal_wins :
    (∀ (b : Board) (m : State) (r : Fin 3), m ≠ State.EMPTY →
      lineAll (rowOf b r) m →
      (∀ r' : Fin 3, r' < r → ¬ lineAll (rowOf b r') (other m)) →
      checkWinner b = m) ∧
    (∀ (b : Board) (m : State), m ≠ State.EMPTY →
      (∀ r : Fin 3, ¬ winLine (rowOf b r)) →
      (∀ c : Fin 3, ¬ winLine (colOf b c)) →
      (lineAll (mainDiag b) m ∨ lineAll (antiDiag b) m) →
      checkWinner b = m) := by
  constructor
  · intro b m r hm hline hprev
    fin_cases r
    · exact checkWinner_row0 b m (tripleWin_eq_some _ _ hm hline)
    · rcases h0 : tripleWin (rowOf b 0) with _ | w
      · exact checkWinner_row1 b m h0 (tripleWin_eq_some _ _ hm hline)
      · obtain ⟨hw, hl0⟩ := tripleWin_some_inv _ _ h0
        have hwm : w = m := by
          by_cases hwo : w = other m
          · exact absurd (hwo ▸ hl0) (hprev 0 (by decide))
          · exact eq_mark_of_ne_other m w hm hw hwo
        exact hwm ▸ checkWinner_row0 b w h0
    · rcases h0 : tripleWin (rowOf b 0) with _ | w
      · rcases h1 : tripleWin (rowOf b 1) with _ | w
        · exact checkWinner_row2 b m h0 h1 (tripleWin_eq_some _ _ hm hline)
        · obtain ⟨hw, hl1⟩ := tripleWin_some_inv _ _ h1
          have hwm : w = m := by
            by_cases hwo : w = other m
            · exact absurd (hwo ▸ hl1) (hprev 1 (by decide))
            · exact eq_mark_of_ne_other m w hm hw hwo
          exact hwm ▸ checkWinner_row1 b w h0 h1
      · obtain ⟨hw, hl0⟩ := tripleWin_some_inv _ _ h0
        have hwm : w = m := by
          by_cases hwo : w = other m
          · exact absurd (hwo ▸ hl0) (hprev 0 (by decide))
          · exact eq_mark_of_ne_other m w hm hw hwo
        exact hwm ▸ checkWinner_row0 b w h0
  · intro b m hm hrow hcol hdisj
    have h0 := tripleWin_eq_none _ (hrow 0)
    have h1 := tripleWin_eq_none _ (hrow 1)
    have h2 := tripleWin_eq_none _ (hrow 2)
    rcases hd : tripleWin (mainDiag b) with _ | w
    · rcases hdisj with hmain | hanti
      · exact absurd (tripleWin_eq_some _ _ hm hmain) (by simp [hd])
      · exact checkWinner_antiDiag b m h0 h1 h2 hd
          (tripleWin_eq_some _ _ hm hanti)
    · obtain ⟨hw, hlw⟩ := tripleWin_some_inv _ _ hd
      have hwm : w = m := by
        rcases hdisj with hmain | hanti
        · exact lineAll_unique hlw hmain
        · have e1 : b 1 1 = w := hlw.2.1
          have e2 : b 1 1 = m := hanti.2.1
          exact e1.symm.trans e2
      exact hwm ▸ checkWinner_mainDiag b w h0 h1 h2 hd

/-- C2 witness: the spec's own example boards, with every hypothesis
discharged concretely. -/
theorem c2_witness :
    checkWinner (boardOf [[State.X, State.X, State.X], [], []]) = State.X ∧
    checkWinner (boardOf [[State.X], [State.EMPTY, State.X],
      [State.EMPTY, State.EMPTY, State.X]]) = State.X :=
  ⟨c2_row_and_diagonal_wins.1
      (boardOf [[State.X, State.X, State.X], [], []]) State.X 0
      (by decide) (by decide) (by decide),
   c2_row_and_diagonal_wins.2
      (boardOf [[State.X], [State.EMPTY, State.X],
        [State.EMPTY, State.EMPTY, State.X]]) State.X
      (by decide) (by decide) (by decide) (Or.inl (by decide))⟩

/-- C3: move validation applies its six checks in the fixed order
length, row-is-digit, row-in-range, column-is-digit, column-in-range,
cell-unoccupied, returning the first failing check's kind
(`movePlayer`'s status coincides with the spec-side `orderedCheck` for
every board and input); in particular the two-character input `"9a"`
classifies as `InvalidRowVal`, never a column failure. -/
theorem c3_validation_order :
    (∀ (turn : State) (b : Board) (input : List Char), turn ≠ State.EMPTY →
      (movePlayer turn b input).map Prod.fst = some (orderedCheck b input)) ∧
    (∀ (turn : State) (b : Board), turn ≠ State.EMPTY →
      (movePlayer turn b ['9', 'a']).map Prod.fst =
        some InputStatus.InvalidRowVal) := by
  refine ⟨movePlayer_fst, fun turn b h => ?_⟩
  rw [movePlayer_fst turn b ['9', 'a'] h]
  rfl

/-- C3 witness: player `X` on the empty board entering `"9a"`. -/
theorem c3_witness :
    (movePlayer State.X emptyBoard ['9', 'a']).map Prod.fst =
      some InputStatus.InvalidRowVal :=
  c3_validation_order.2 State.X emptyBoard (by decide)

/-- C4: whenever `move_player` returns any non-`Success` status, the
board it hands back is the one it was given, and the loop iteration
leaves the whole state (board, move count, turn) unchanged, so the same
player is re-prompted; only `Success` mutates the board. -/
theorem c4_failure_preserves_state :
    ∀ (s : GameState) (input : List Char) (st : InputStatus) (b' : Board),
      s.turn ≠ State.EMPTY →
      movePlayer s.turn s.board input = some (st, b') →
      st ≠ InputStatus.Success →
      b' = s.board ∧ mainStep s input = some s :=
  fun s input st b' h hmp hst =>
    ⟨movePlayer_fail_board _ _ _ _ _ h hmp hst,
     mainStep_of_fail s input st b' h hmp hst⟩

/-- C4 witness: with (0,0) already marked `X`, the move `"11"` is
rejected as `GridOccupied` and the state is untouched. -/
theorem c4_witness :
    occupiedState.board 0 0 = State.X ∧
    mainStep occupiedState ['1', '1'] = some occupiedState :=
  ⟨rfl,
   (c4_failure_preserves_state occupiedState ['1', '1']
      InputStatus.GridOccupied occupiedState.board
      (by decide) rfl (by decide)).2⟩

/-- C5 (counterexample): the claim ties the length failure to the
trimmed input's character count, but `str::len()` counts bytes: the
one-character input `"é"` (two UTF-8 bytes) passes the length check and
fails as `RowNotBaseTen`, not `NotTwoDigits`. -/
theorem c5_counterexample :
    ([eAcute].length = 1) ∧
    (movePlayer State.X emptyBoard [eAcute]).map Prod.fst =
      some InputStatus.RowNotBaseTen ∧
    (movePlayer State.X emptyBoard [eAcute]).map Prod.fst ≠
      some InputStatus.NotTwoDigits := ⟨rfl, rfl, by decide⟩

/-- C5 (amended): validation reports the length failure kind
`NotTwoDigits` exactly when the trimmed input's UTF-8 **byte** length
differs from 2. -/
theorem c5_length_check :
    ∀ (turn : State) (b : Board) (input : List Char), turn ≠ State.EMPTY →
      ((movePlayer turn b input).map Prod.fst =
          some InputStatus.NotTwoDigits ↔ byteLength input ≠ 2) := by
  intro turn b input h
  rw [movePlayer_fst turn b input h]
  rw [Option.some_inj]
  exact orderedCheck_len_iff b input

/-- C5 witness: the one-byte input `"1"` fails with the length kind. -/
theorem c5_witness :
    (movePlayer State.X emptyBoard ['1']).map Prod.fst =
      some InputStatus.NotTwoDigits :=
  (c5_length_check State.X emptyBoard ['1'] (by decide)).mpr (by decide)

/-- C6: after a successful move the active player flips (`X` to `O` and
`O` to `X`); after any rejected move the turn is unchanged. -/
theorem c6_turn_alternation :
    ∀ (s : GameState) (input : List Char) (st : InputStatus) (b' : Board)
      (s' : GameState),
      movePlayer s.turn s.board input = some (st, b') →
      mainStep s input = some s' →
      ((st = InputStatus.Success →
         (s.turn = State.X → s'.turn = State.O) ∧
         (s.turn = State.O → s'.turn = State.X)) ∧
       (st ≠ InputStatus.Success → s'.turn = s.turn)) := by
  intro s input st b' s' hmp hms
  have hne : s.turn ≠ State.EMPTY := by
    intro he
    simp [movePlayer, he] at hmp
  constructor
  · intro hst
    subst hst
    constructor
    · intro hX
      have hstep := mainStep_success_eq s input b' State.O hmp (by rw [hX]; rfl)
      rw [hstep] at hms
      have h2 := Option.some.inj hms
      rw [← h2]
    · intro hO
      have hstep := mainStep_success_eq s input b' State.X hmp (by rw [hO]; rfl)
      rw [hstep] at hms
      have h2 := Option.some.inj hms
      rw [← h2]
  · intro hst
    have hstep := mainStep_of_fail s input st b' hne hmp hst
    rw [hstep] at hms
    have h2 := Option.some.inj hms
    rw [← h2]

/-- C6 witness: `X` plays `"11"` from the initial state and the turn
flips to `O`. -/
theorem c6_witness : afterFirstMove.turn = State.O :=
  ((c6_turn_alternation initState ['1', '1'] InputStatus.Success
      (updateBoard emptyBoard 0 0 State.X) afterFirstMove rfl rfl).1
    rfl).1 rfl

/-- C7: a state with nine valid moves and no winner ends the game with
the `"Draw!"` report and accepts no further moves; conversely a
successful move whose resulting board has a non-`EMPTY` `check_winner`
value records that mark as the winner, is not reported as a draw, and
no further moves are accepted. -/
theorem c7_draw_and_win :
    (∀ s : GameState, s.validMoves = 9 → s.winner = State.EMPTY →
      finalMessage s = "\nDraw!" ∧ ∀ inputs, run s inputs = some s) ∧
    (∀ (s : GameState) (input : List Char) (b' : Board),
      s.turn ≠ State.EMPTY →
      movePlayer s.turn s.board input = some (InputStatus.Success, b') →
      checkWinner b' ≠ State.EMPTY →
      ∃ s', mainStep s input = some s' ∧ s'.winner = checkWinner b' ∧
        finalMessage s' ≠ "\nDraw!" ∧ ∀ inputs, run s' inputs = some s') := by
  constructor
  · intro s h9 hw
    refine ⟨by simp [finalMessage, hw], run_stop s ?_⟩
    rintro ⟨-, hv⟩
    exact hv h9
  · intro s input b' hne hmp hcw
    obtain ⟨t', hsw⟩ : ∃ t', swapTurn s.turn = some t' := by
      rcases (turn_ne_empty_iff _).mp hne with hX | hO
      · exact ⟨State.O, by rw [hX]; rfl⟩
      · exact ⟨State.X, by rw [hO]; rfl⟩
    have hstep := mainStep_success_eq s input b' t' hmp hsw
    refine ⟨_, hstep, ?_, ?_, ?_⟩
    case _ =>
      show (match checkWinner b' with
            | State.EMPTY => s.winner
            | p => p) = checkWinner b'
      cases hc : checkWinner b' with
      | EMPTY => exact absurd hc hcw
      | X => rfl
      | O => rfl
    case _ =>
      apply finalMessage_ne_draw
      show (match checkWinner b' with
            | State.EMPTY => s.winner
            | p => p) ≠ State.EMPTY
      cases hc : checkWinner b' with
      | EMPTY => exact absurd hc hcw
      | X => exact fun h => State.noConfusion h
      | O => exact fun h => State.noConfusion h
    case _ =>
      apply run_stop
      rintro ⟨hwin, -⟩
      revert hwin
      show (match checkWinner b' with
            | State.EMPTY => s.winner
            | p => p) = State.EMPTY → False
      cases hc : checkWinner b' with
      | EMPTY => exact fun _ => hcw hc
      | X => exact fun h => State.noConfusion h
      | O => exact fun h => State.noConfusion h

/-- C7 witness: a full drawn board reports `"Draw!"` and halts; from a
near-win state, `X` playing `"13"` completes row 0 and ends the game
with `X` as winner. -/
theorem c7_witness :
    (finalMessage drawReadyState = "\nDraw!" ∧
      run drawReadyState [['1', '1']] = some drawReadyState) ∧
    ∃ s', mainStep nearWinState ['1', '3'] = some s' ∧
      s'.winner = checkWinner (updateBoard nearWinState.board 0 2 State.X) ∧
      finalMessage s' ≠ "\nDraw!" ∧ ∀ inputs, run s' inputs = some s' :=
  ⟨⟨(c7_draw_and_win.1 drawReadyState rfl rfl).1,
    (c7_draw_and_win.1 drawReadyState rfl rfl).2 [['1', '1']]⟩,
   c7_draw_and_win.2 nearWinState ['1', '3']
     (updateBoard nearWinState.board 0 2 State.X)
     (by decide) rfl (by decide)⟩

/-- C8: starting from the initial state, over any sequence of input
lines the game loop never panics (never hits an `Invalid turn value`
branch) and the turn is always one of the two player marks. -/
theorem c8_turn_invariant :
    ∀ inputs : List (List Char), ∃ s', run initState inputs = some s' ∧
      (s'.turn = State.X ∨ s'.turn = State.O) :=
  fun inputs => run_inv inputs initState (Or.inl rfl)

/-- C9: `check_winner` is a pure function of the board — evaluating it
any number of times on the same unmodified board yields the identical
result each time. -/
theorem c9_pure_evaluation :
    ∀ (b : Board) (n : Nat),
      (List.replicate n b).map checkWinner =
        List.replicate n (checkWinner b) := by
  intro b n
  induction n with
  | zero => rfl
  | succ k ih => simp [List.replicate_succ, ih]

/-- C10: a trimmed input of byte length exactly 2 is non-empty, and if
its first character is an ASCII digit a second character exists, so the
two `.expect` character extractions in `move_player` cannot panic:
`movePlayer` returns a value for every such input. -/
theorem c10_second_char_exists :
    ∀ input : List Char, byteLength input = 2 →
      input ≠ [] ∧
      (∀ c rest, input = c :: rest → (charToDigit c).isSome → rest ≠ []) ∧
      (∀ (turn : State) (b : Board), turn ≠ State.EMPTY →
        (movePlayer turn b input).isSome) := by
  intro input hlen
  refine ⟨?_, ?_, fun turn b h => movePlayer_isSome turn b input h⟩
  · intro he
    rw [he] at hlen
    simp [byteLength] at hlen
  · intro c rest hin hre hdig
    rw [hin, hdig] at hlen
    have h1 := utf8Size_of_digit c hre
    simp [byteLength, h1] at hlen

/-- C10 witness: the input `"12"`. -/
theorem c10_witness :
    byteLength ['1', '2'] = 2 ∧
    (movePlayer State.X emptyBoard ['1', '2']).isSome :=
  ⟨by decide,
   (c10_second_char_exists ['1', '2'] (by decide)).2.2 State.X emptyBoard
     (by decide)⟩

end TicTacToe
